import Mathlib

/-!
Verification of the orbe-agent-avatar metaball/node-simulation core.

The simulation code (`OrbeElement.tsx`: `initializeMetaNodes`, `updateMetaNodes`,
`updateMetaballs`, `simplex3D`, `STATE_MODULATIONS`), the noise hashes
(`OrbeHDRIFixed.tsx` / `ComplexShapesFixed.ts`: `noise2D`, `noise3D`,
`validateMousePosition`), the time advance (`animate` / `animateFn`) and the
physics variant (`OrbeElementPhysics.tsx`, `MetaBody.ts`) are shallowly embedded
below over the real numbers; the spec-level field accumulator and marching-cubes
mesher (whose `utils/MarchingCubes.ts` implementation file is absent from the
source tree) are modelled over the rationals from the specification text.
-/

namespace Orbe

/-- A 3-component vector with real coordinates, mirroring `THREE.Vector3`. -/
structure Vec3 where
  x : ℝ
  y : ℝ
  z : ℝ

namespace Vec3

def add (a b : Vec3) : Vec3 := ⟨a.x + b.x, a.y + b.y, a.z + b.z⟩

def sub (a b : Vec3) : Vec3 := ⟨a.x - b.x, a.y - b.y, a.z - b.z⟩

def neg (a : Vec3) : Vec3 := ⟨-a.x, -a.y, -a.z⟩

/-- `multiplyScalar`. -/
def smul (c : ℝ) (a : Vec3) : Vec3 := ⟨c * a.x, c * a.y, c * a.z⟩

def dot (a b : Vec3) : ℝ := a.x * b.x + a.y * b.y + a.z * b.z

/-- `crossVectors`. -/
def cross (a b : Vec3) : Vec3 :=
  ⟨a.y * b.z - a.z * b.y, a.z * b.x - a.x * b.z, a.x * b.y - a.y * b.x⟩

noncomputable def length (a : Vec3) : ℝ := Real.sqrt (a.x ^ 2 + a.y ^ 2 + a.z ^ 2)

/-- `THREE.Vector3.normalize` divides by the length; the zero vector (the only
vector of length zero over `ℝ`) is left unchanged, matching `divideScalar(length || 1)`.
With Lean's `1 / 0 = 0` convention the scalar form below does exactly that. -/
noncomputable def normalize (a : Vec3) : Vec3 := smul (1 / length a) a

def zero : Vec3 := ⟨0, 0, 0⟩

theorem length_nonneg (a : Vec3) : 0 ≤ length a := Real.sqrt_nonneg _

theorem length_smul (c : ℝ) (a : Vec3) : length (smul c a) = |c| * length a := by
  unfold length smul
  simp only
  rw [show (c * a.x) ^ 2 + (c * a.y) ^ 2 + (c * a.z) ^ 2
      = c ^ 2 * (a.x ^ 2 + a.y ^ 2 + a.z ^ 2) from by ring]
  rw [Real.sqrt_mul (sq_nonneg c), Real.sqrt_sq_eq_abs]

theorem length_normalize_le_one (a : Vec3) : length (normalize a) ≤ 1 := by
  unfold normalize
  rw [length_smul]
  rcases eq_or_ne (length a) 0 with h | h
  · simp [h]
  · have hpos : 0 < length a := lt_of_le_of_ne (length_nonneg a) (Ne.symm h)
    rw [abs_of_nonneg (by positivity)]
    rw [one_div, inv_mul_cancel₀ h]

theorem length_normalize_of_ne (a : Vec3) (h : length a ≠ 0) :
    length (normalize a) = 1 := by
  have hpos : 0 < length a := lt_of_le_of_ne (length_nonneg a) (Ne.symm h)
  unfold normalize
  rw [length_smul, abs_of_nonneg (by positivity), one_div, inv_mul_cancel₀ h]

end Vec3

/-- The closed mood enum (`utils/types.ts`: `AnimationState`). -/
inductive AnimationState where
  | idle
  | listening
  | thinking
  | talking
deriving DecidableEq

/-- The per-state record type of `STATE_MODULATIONS` in `OrbeElement.tsx`. -/
structure Modulation where
  noiseScale : ℝ
  noiseSpeed : ℝ
  pulseFrequency : ℝ
  pulseAmplitude : ℝ
  turbulence : ℝ
  rotationSpeed : ℝ
  bodyCount : ℕ
  strength : ℝ
  subtract : ℝ

/-- `STATE_MODULATIONS` (`OrbeElement.tsx`, lines 40-95; the
`OrbeElementPhysics.tsx` table repeats the `bodyCount`/`strength`/`subtract`/
`turbulence`/`pulseFrequency`/`rotationSpeed` columns with identical values). -/
def STATE_MODULATIONS : AnimationState → Modulation
  | .idle =>
    { noiseScale := 1.5, noiseSpeed := 0.15, pulseFrequency := 0.4,
      pulseAmplitude := 0.02, turbulence := 0.08, rotationSpeed := 0.001,
      bodyCount := 15, strength := 0.5, subtract := 10 }
  | .listening =>
    { noiseScale := 2.0, noiseSpeed := 0.25, pulseFrequency := 1.0,
      pulseAmplitude := 0.03, turbulence := 0.15, rotationSpeed := 0.002,
      bodyCount := 18, strength := 0.55, subtract := 9 }
  | .thinking =>
    { noiseScale := 1.8, noiseSpeed := 0.2, pulseFrequency := 0.7,
      pulseAmplitude := 0.025, turbulence := 0.12, rotationSpeed := 0.0025,
      bodyCount := 20, strength := 0.52, subtract := 9.5 }
  | .talking =>
    { noiseScale := 2.5, noiseSpeed := 0.35, pulseFrequency := 1.5,
      pulseAmplitude := 0.04, turbulence := 0.2, rotationSpeed := 0.003,
      bodyCount := 22, strength := 0.58, subtract := 8.5 }

/-- An influence node of `OrbeElement.tsx`: a position/velocity pair from the
parallel arrays `metaNodesRef` / `metaNodesVelocityRef`, tagged with whether it
is the distinguished central node (the element pushed first by
`initializeMetaNodes` and treated specially by index `0` in `updateMetaNodes`). -/
structure MetaNode where
  pos : Vec3
  vel : Vec3
  isCore : Bool

/-- The golden angle `Math.PI * (3 - Math.sqrt(5))` used by the Fibonacci
sphere layout. -/
noncomputable def goldenAngle : ℝ := Real.pi * (3 - Real.sqrt 5)

/-- One satellite node of `initializeMetaNodes` (`OrbeElement.tsx`, lines
317-342): position on a Fibonacci sphere of radius `0.33`, velocity from the
deterministic symmetric pattern of speed `0.003`. -/
noncomputable def satelliteNode (count i : ℕ) : MetaNode :=
  let y : ℝ := 1 - ((i : ℝ) / ((count : ℝ) - 1)) * 2
  let radius : ℝ := Real.sqrt (1 - y * y)
  let theta : ℝ := goldenAngle * (i : ℝ)
  let baseRadius : ℝ := 0.33
  let angle : ℝ := ((i : ℝ) / (count : ℝ)) * Real.pi * 2
  let speed : ℝ := 0.003
  { pos := ⟨Real.cos theta * radius * baseRadius, y * baseRadius,
            Real.sin theta * radius * baseRadius⟩
    vel := ⟨Real.cos angle * speed, Real.sin angle * speed,
            Real.cos (angle + Real.pi / 2) * speed⟩
    isCore := false }

/-- `initializeMetaNodes(count)` (`OrbeElement.tsx`, lines 306-343): pushes one
central node at the exact origin with zero velocity, then `count` satellite
nodes laid out by the Fibonacci-sphere loop `for (let i = 0; i < count; i++)`. -/
noncomputable def initializeMetaNodes (count : ℕ) : List MetaNode :=
  { pos := Vec3.zero, vel := Vec3.zero, isCore := true }
    :: (List.range count).map (satelliteNode count)

/-- The central node's wobble assigned by `updateMetaNodes` for index `0`
(`OrbeElement.tsx`, lines 362-367), as a function of `timeRef.current`. -/
noncomputable def coreWobble (t : ℝ) : Vec3 :=
  ⟨Real.sin (t * 0.5) * 0.02, Real.cos (t * 0.4) * 0.02, Real.sin (t * 0.3) * 0.02⟩

/-- The local tuning constants of `updateMetaNodes` (`OrbeElement.tsx`,
lines 347-350). -/
def centerAttraction : ℝ := 0.004

def mouseInfluence : ℝ := 0.0005

def bounceRegion : ℝ := 0.38

def orbitStrength : ℝ := 0.002

/-- Everything one `updateMetaNodes` iteration reads for a non-core node:
the mood state and its modulation record, `timeRef.current`, the pointer
vector `mousePos.current`, the three `Math.random()` draws of the turbulence
jitter, the node index `i`, and `metaNodesRef.current.length`. -/
structure StepInput where
  state : AnimationState
  modulation : Modulation
  t : ℝ
  mouse : ℝ × ℝ
  rand : Vec3
  i : ℕ
  count : ℕ

/-- Turbulence jitter: `velocity.{x,y,z} += (Math.random() - 0.5) * 0.002 *
modulation.turbulence` (lines 374-376). -/
def turbStage (inp : StepInput) (pv : Vec3 × Vec3) : Vec3 × Vec3 :=
  (pv.1, Vec3.add pv.2
    ⟨(inp.rand.x - 0.5) * 0.002 * inp.modulation.turbulence,
     (inp.rand.y - 0.5) * 0.002 * inp.modulation.turbulence,
     (inp.rand.z - 0.5) * 0.002 * inp.modulation.turbulence⟩)

/-- Center attraction: `velocity += normalize(-node) * (centerAttraction *
(node.length() * 2))` (lines 379-381). -/
noncomputable def centerStage (pv : Vec3 × Vec3) : Vec3 × Vec3 :=
  (pv.1, Vec3.add pv.2
    (Vec3.smul (centerAttraction * (Vec3.length pv.1 * 2))
      (Vec3.normalize (Vec3.neg pv.1))))

/-- Pointer attraction (lines 384-389): a 3D mouse point at half the pointer
coordinates; only applied when the node is within `0.5` of it. -/
noncomputable def mouseStage (inp : StepInput) (pv : Vec3 × Vec3) : Vec3 × Vec3 :=
  let mouse3D : Vec3 := ⟨inp.mouse.1 * 0.5, inp.mouse.2 * 0.5, 0⟩
  let toMouse := Vec3.sub mouse3D pv.1
  let mouseDistance := Vec3.length toMouse
  if mouseDistance < 0.5 then
    (pv.1, Vec3.add pv.2
      (Vec3.smul (mouseInfluence / max 0.1 mouseDistance) (Vec3.normalize toMouse)))
  else pv

/-- Integration and damping: `node.add(velocity); velocity.multiplyScalar(0.96)`
(lines 392-395). -/
def integrateDampStage (pv : Vec3 × Vec3) : Vec3 × Vec3 :=
  (Vec3.add pv.1 pv.2, Vec3.smul 0.96 pv.2)

/-- Boundary reflection (lines 397-408): when the node has left the
`bounceRegion` sphere, reflect the velocity about the outward unit normal,
re-project the position to `bounceRegion * 0.9` along that normal, and scale
the velocity by `1.2 * modulation.turbulence`. -/
noncomputable def bounceStage (inp : StepInput) (pv : Vec3 × Vec3) : Vec3 × Vec3 :=
  let distance := Vec3.length pv.1
  if distance > bounceRegion then
    let normal := Vec3.normalize pv.1
    let d := Vec3.dot pv.2 normal
    let reflected := Vec3.sub pv.2 (Vec3.smul (2 * d) normal)
    (Vec3.smul (bounceRegion * 0.9) (Vec3.normalize pv.1),
     Vec3.smul (1.2 * inp.modulation.turbulence) reflected)
  else pv

/-- Orbital force (lines 412-415): `velocity += normalize(cross(node, up)) *
orbitStrength` with `up = (0, 1, 0)`. -/
noncomputable def orbitStage (pv : Vec3 × Vec3) : Vec3 × Vec3 :=
  (pv.1, Vec3.add pv.2
    (Vec3.smul orbitStrength (Vec3.normalize (Vec3.cross pv.1 ⟨0, 1, 0⟩))))

/-- The state-specific force switch (lines 418-453). -/
noncomputable def stateStage (inp : StepInput) (pv : Vec3 × Vec3) : Vec3 × Vec3 :=
  match inp.state with
  | .idle =>
    (pv.1, Vec3.add pv.2 ⟨-pv.1.z * 0.0005, 0, pv.1.x * 0.0005⟩)
  | .talking =>
    let pulseForce := Real.sin (inp.t * inp.modulation.pulseFrequency * 2) * 0.002
    (pv.1, Vec3.add pv.2 (Vec3.smul pulseForce (Vec3.normalize pv.1)))
  | .listening =>
    let listenForce := Real.sin (inp.t * 1.5 + (inp.i : ℝ) * 0.5) * 0.001
    (pv.1, Vec3.add pv.2
      ⟨Real.sin ((inp.i : ℝ) * 0.8) * listenForce,
       Real.cos ((inp.i : ℝ) * 0.8) * listenForce,
       Real.sin ((inp.i : ℝ) * 0.8 + Real.pi / 2) * listenForce⟩)
  | .thinking =>
    let angle := (inp.i : ℝ) * (Real.pi * 2 / (inp.count : ℝ)) + inp.t * 0.2
    let perpRadius := 0.0008 * inp.modulation.turbulence
    (pv.1, Vec3.add pv.2
      ⟨Real.cos angle * perpRadius, Real.sin angle * perpRadius,
       Real.cos (angle * 1.5) * perpRadius⟩)

/-- One `updateMetaNodes` iteration for a non-core node (`OrbeElement.tsx`,
lines 360-453), translated statement by statement in source order: turbulence,
center attraction, pointer attraction, position integration with damping,
boundary reflection, orbital force, state-specific force. -/
noncomputable def stepMetaNode (inp : StepInput) (pv : Vec3 × Vec3) : Vec3 × Vec3 :=
  stateStage inp (orbitStage (bounceStage inp
    (integrateDampStage (mouseStage inp (centerStage (turbStage inp pv))))))

/-- The per-step force order claimed by spec §4.2: turbulence, center
attraction, pointer attraction, orbital force, state-specific force, and only
then integration, damping and boundary reflection. Written from the spec's
words, to be compared with `stepMetaNode`. -/
noncomputable def stepSpecOrder (inp : StepInput) (pv : Vec3 × Vec3) : Vec3 × Vec3 :=
  bounceStage inp (integrateDampStage
    (stateStage inp (orbitStage (mouseStage inp (centerStage (turbStage inp pv))))))

/-- A whole sequence of `updateMetaNodes` iterations applied to one node. -/
noncomputable def foldSteps : List StepInput → Vec3 × Vec3 → Vec3 × Vec3
  | [], pv => pv
  | inp :: rest, pv => foldSteps rest (stepMetaNode inp pv)

/-- The per-frame time increment of `animateFn` in `OrbeHDRIFixed.tsx`
(lines 293-296): `(deltaTime / 16.67) * 0.01`, where `deltaTime` is the
measured elapsed milliseconds since the previous frame. -/
noncomputable def timeIncrement (deltaTime : ℝ) : ℝ := (deltaTime / 16.67) * 0.01

/-- The per-frame time advance of `animate` in `OrbeElement.tsx` (line 235):
`timeRef.current += 0.01`, independent of wall-clock elapsed time. -/
noncomputable def animateAdvance (t : ℝ) : ℝ := t + 0.01

/-- `noise2D` (`OrbeHDRIFixed.tsx` lines 30-35, identical copy in
`ComplexShapesFixed.ts`): the sine hash `sin(dot(input, magic)) * 43758.5453123`
minus its `Math.floor`. -/
noncomputable def noise2D (x y seed : ℝ) : ℝ :=
  Real.sin (x * 12.9898 + y * 78.233 + seed) * 43758.5453123
    - ⌊Real.sin (x * 12.9898 + y * 78.233 + seed) * 43758.5453123⌋

/-- `noise3D` (`OrbeHDRIFixed.tsx` lines 37-42). -/
noncomputable def noise3D (x y z seed : ℝ) : ℝ :=
  Real.sin (x * 12.9898 + y * 78.233 + z * 37.719 + seed) * 43758.5453123
    - ⌊Real.sin (x * 12.9898 + y * 78.233 + z * 37.719 + seed) * 43758.5453123⌋

/-- A JavaScript number that is either a finite real or `NaN`; `none`
stands for `NaN`, so `isNaN` is the `Option.isNone` test. -/
abbrev JSNum := Option ℝ

/-- `validateMousePosition` (`ComplexShapesFixed.ts` lines 27-41): a missing
pointer stays missing, a pointer with a `NaN` coordinate is discarded, and
each coordinate is clamped by `Math.max(-1, Math.min(1, ·))`. -/
noncomputable def validateMousePosition (mousePosition : Option (JSNum × JSNum)) :
    Option (ℝ × ℝ) :=
  match mousePosition with
  | none => none
  | some (mx, my) =>
    match mx, my with
    | some x, some y => some (max (-1) (min 1 x), max (-1) (min 1 y))
    | _, _ => none

/-- `simplex3D` (`OrbeElement.tsx`, lines 564-571): four layered sine/cosine
products with coefficients `0.5`, `0.3`, `0.2`, `0.1`. -/
noncomputable def simplex3D (x y z : ℝ) : ℝ :=
  Real.sin x * Real.cos y * Real.sin z * 0.5 +
    Real.sin (x * 2.1 + 0.3) * Real.cos (y * 1.7 + 0.2) * Real.sin (z * 2.3 + 0.1) * 0.3 +
    Real.sin (x * 3.7 + 0.7) * Real.cos (y * 4.3 + 0.4) * Real.sin (z * 2.9 + 0.5) * 0.2 +
    Real.sin (x * 5.1 - 0.4) * Real.cos (y * 4.8 + 0.3) * Real.sin (z * 5.2 - 0.2) * 0.1

/-- The state-adjusted `baseStrength` of `updateMetaballs` (`OrbeElement.tsx`,
lines 473-497), starting from `1.8`. -/
noncomputable def baseStrength (state : AnimationState) (t : ℝ) : ℝ :=
  match state with
  | .idle => 1.8 * 0.95
  | .listening => 1.8 * (1.05 + Real.sin (t * 1.5) * 0.07)
  | .thinking => 1.8 * (1.0 + Real.sin (t * 0.8) * 0.04)
  | .talking => 1.8 * (1.1 + Real.sin (t * 3) * 0.1)

/-- The strength argument `updateMetaballs` passes to `metaballs.addBall` for
the node of index `index` (`OrbeElement.tsx`, lines 500-527): the central node
doubles `ballStrength`, and a `simplex3D` fluctuation scaled by `0.15` and the
state's turbulence multiplies in. -/
noncomputable def nodeBallStrength (state : AnimationState) (t : ℝ)
    (index : ℕ) (node : Vec3) : ℝ :=
  let ballStrength := if index = 0 then baseStrength state t * 2.0 else baseStrength state t
  let fluctuation := simplex3D (node.x + t * 0.2) (node.y + t * 0.3) (node.z + t * 0.1) * 0.15
  ballStrength * (1 + fluctuation * (STATE_MODULATIONS state).turbulence)

/-- The `metaNodesRef.current.forEach` loop of `updateMetaballs`: the strength
argument of each node's `addBall` call, walking the node list with its index. -/
noncomputable def nodeStrengthsFrom (state : AnimationState) (t : ℝ) :
    ℕ → List Vec3 → List ℝ
  | _, [] => []
  | index, node :: rest =>
    nodeBallStrength state t index node :: nodeStrengthsFrom state t (index + 1) rest

/-- The full list of strength values one `updateMetaballs` call passes to
`MarchingCubes.addBall` (`OrbeElement.tsx`, lines 499-557): one per meta node,
plus the mouse-influence ball of strength `baseStrength * 0.5 * 0.02` added
when the pointer is within `0.8` of the center. -/
noncomputable def updateMetaballsStrengths (state : AnimationState) (t : ℝ)
    (nodes : List Vec3) (mouse : ℝ × ℝ) : List ℝ :=
  let nodeStrengths := nodeStrengthsFrom state t 0 nodes
  let mouseDistanceToCenter := Real.sqrt (mouse.1 ^ 2 + mouse.2 ^ 2)
  let mouseStrength : ℝ := 0.02
  if mouseDistanceToCenter < 0.8 then
    nodeStrengths ++ [baseStrength state t * 0.5 * mouseStrength]
  else nodeStrengths

/-- A physics metaball body (`utils/MetaBody.ts`): the constructor places it at
a random position in `[-1.5, 1.5] × [1.5, 4.5] × [-1.5, 1.5]` derived from
three `Math.random()` draws, with a random-hue color. No body is marked as a
core. -/
structure MetaBody where
  pos : Vec3
  hue : ℝ

/-- `createMetaBodies(count, world, debug)` (`utils/MetaBody.ts`): pushes
`count` bodies, each from the `MetaBody` constructor with no explicit position;
`randDraws i` supplies the position draws and `randHue i` the color hue for the
`i`-th body. -/
noncomputable def createMetaBodies (count : ℕ) (randDraws : ℕ → Vec3) (randHue : ℕ → ℝ) :
    List MetaBody :=
  (List.range count).map (fun i =>
    { pos := ⟨(randDraws i).x * 3 - 1.5, (randDraws i).y * 3 - 1.5 + 3,
              (randDraws i).z * 3 - 1.5⟩
      hue := randHue i })

/-- `initializeMetaBodies(state)` (`OrbeElementPhysics.tsx`, lines 308-331):
clears the body list and creates `STATE_MODULATIONS[state].bodyCount` fresh
bodies via `createMetaBodies`. -/
noncomputable def initializeMetaBodies (state : AnimationState) (randDraws : ℕ → Vec3)
    (randHue : ℕ → ℝ) : List MetaBody :=
  createMetaBodies (STATE_MODULATIONS state).bodyCount randDraws randHue

/-- The node-system part of the `[currentState]` effect in `OrbeElement.tsx`
(lines 600-606): the meta-node position list is untouched; every velocity gets
a random impulse `(Math.random() - 0.5) * 0.08` per component. `impulse i`
supplies the three draws for the `i`-th velocity. -/
noncomputable def orbeStateChange (nodes : List Vec3) (velocities : List Vec3)
    (impulse : ℕ → Vec3) : List Vec3 × List Vec3 :=
  (nodes, velocities.mapIdx (fun i v =>
    ⟨v.x + ((impulse i).x - 0.5) * 0.08, v.y + ((impulse i).y - 0.5) * 0.08,
     v.z + ((impulse i).z - 0.5) * 0.08⟩))

/-! ### Field accumulation and isosurface extraction

Modelled from the spec: the repository imports `MarchingCubes` from
`utils/MarchingCubes.ts`, but that implementation file is absent from the
source tree (only its callers are present), so `FieldAccumulator` and
`MarchingCubesMesher` are modelled here from spec §4.3-§4.4: an inverse-law
ball kernel summed per voxel cell with a boosted core multiplier and an
intensity-weighted color blend, and a per-cube corner-configuration mesher
that emits a triangle fan of interpolated edge crossings. Grid and field
values use exact rationals so the model is executable. -/

/-- A triple of rationals, used for world-space points and accumulated colors. -/
abbrev QVec := ℚ × ℚ × ℚ

def qAdd (a b : QVec) : QVec := (a.1 + b.1, a.2.1 + b.2.1, a.2.2 + b.2.2)

def qSub (a b : QVec) : QVec := (a.1 - b.1, a.2.1 - b.2.1, a.2.2 - b.2.2)

def qSmul (c : ℚ) (a : QVec) : QVec := (c * a.1, c * a.2.1, c * a.2.2)

/-- Squared euclidean distance `|a - b|^2`. -/
def qSqDist (a b : QVec) : ℚ :=
  (a.1 - b.1) ^ 2 + (a.2.1 - b.2.1) ^ 2 + (a.2.2 - b.2.2) ^ 2

/-- Spec §3 `Node`, as consumed by the field accumulator. -/
structure QNode where
  pos : QVec
  strength : ℚ
  color : QVec
  isCore : Bool

/-- Spec §3 `VoxelGrid`: a cubic lattice of `res ^ 3` scalar field samples with
a parallel lattice of accumulated colors, positioned by `origin` and `scale`. -/
structure VoxelGrid where
  res : ℕ
  scale : ℚ
  origin : QVec
  field : List ℚ
  colorField : List QVec

/-- World position of sample `i` (cells indexed x-fastest, cell centers at
half-cell offsets). -/
def samplePos (grid : VoxelGrid) (i : ℕ) : QVec :=
  let ix := i % grid.res
  let iy := (i / grid.res) % grid.res
  let iz := i / (grid.res * grid.res)
  (grid.origin.1 + ((ix : ℚ) + 1 / 2) * grid.scale,
   grid.origin.2.1 + ((iy : ℚ) + 1 / 2) * grid.scale,
   grid.origin.2.2 + ((iz : ℚ) + 1 / 2) * grid.scale)

/-- The boosted strength multiplier of the core node (spec §4.3). -/
def coreBoost : ℚ := 2

/-- One node's smooth falloff contribution at cell center `c`:
`strength / (1 + k * |c - pos|^2)`, with the core boost. -/
def nodeContribution (k : ℚ) (c : QVec) (n : QNode) : ℚ :=
  (if n.isCore then n.strength * coreBoost else n.strength) / (1 + k * qSqDist c n.pos)

/-- Total field deposit at cell center `c`, scaled by `fieldStrength`. -/
def cellDeposit (fieldStrength k : ℚ) (c : QVec) (nodes : List QNode) : ℚ :=
  fieldStrength * (nodes.map (nodeContribution k c)).sum

/-- Color deposit at cell center `c`: `color_i * contribution_i` summed. -/
def cellColorDeposit (fieldStrength k : ℚ) (c : QVec) (nodes : List QNode) : QVec :=
  (nodes.map (fun n => qSmul (fieldStrength * nodeContribution k c n) n.color)).foldr
    qAdd (0, 0, 0)

/-- Walks the scalar field, adding each cell's deposit. -/
def accumFieldFrom (grid : VoxelGrid) (nodes : List QNode) (fieldStrength k : ℚ) :
    ℕ → List ℚ → List ℚ
  | _, [] => []
  | i, v :: rest =>
    (v + cellDeposit fieldStrength k (samplePos grid i) nodes)
      :: accumFieldFrom grid nodes fieldStrength k (i + 1) rest

/-- Walks the color field, adding each cell's color deposit. -/
def accumColorFrom (grid : VoxelGrid) (nodes : List QNode) (fieldStrength k : ℚ) :
    ℕ → List QVec → List QVec
  | _, [] => []
  | i, v :: rest =>
    qAdd v (cellColorDeposit fieldStrength k (samplePos grid i) nodes)
      :: accumColorFrom grid nodes fieldStrength k (i + 1) rest

/-- Spec §4.3 `FieldAccumulator.accumulate(grid, nodes, params)`: deposits every
node's ball contribution into every cell of the scalar field and the parallel
color lattice. -/
def accumulate (grid : VoxelGrid) (nodes : List QNode) (fieldStrength k : ℚ) :
    VoxelGrid :=
  { grid with
    field := accumFieldFrom grid nodes fieldStrength k 0 grid.field
    colorField := accumColorFrom grid nodes fieldStrength k 0 grid.colorField }

/-- A triangle of world-space vertices. -/
abbrev Triangle := QVec × QVec × QVec

/-- The eight corners of the cube at lattice position `(x, y, z)`. -/
def cornerOffsets : List (ℕ × ℕ × ℕ) :=
  [(0, 0, 0), (1, 0, 0), (1, 1, 0), (0, 1, 0),
   (0, 0, 1), (1, 0, 1), (1, 1, 1), (0, 1, 1)]

/-- The twelve cube edges as pairs of corner numbers. -/
def cubeEdges : List (ℕ × ℕ) :=
  [(0, 1), (1, 2), (2, 3), (3, 0), (4, 5), (5, 6), (6, 7), (7, 4),
   (0, 4), (1, 5), (2, 6), (3, 7)]

/-- Flat sample index of corner `o` of the cube at `(x, y, z)`. -/
def cornerIndex (res x y z : ℕ) (o : ℕ × ℕ × ℕ) : ℕ :=
  (x + o.1) + (y + o.2.1) * res + (z + o.2.2) * res * res

/-- Field value at a cube corner (missing samples read as `0`). -/
def cornerValue (grid : VoxelGrid) (x y z : ℕ) (o : ℕ × ℕ × ℕ) : ℚ :=
  grid.field.getD (cornerIndex grid.res x y z o) 0

/-- Spec §4.4: the 8-bit configuration index recording which corners exceed
`isolation`. -/
def cubeConfig (grid : VoxelGrid) (isolation : ℚ) (x y z : ℕ) : ℕ :=
  (if cornerValue grid x y z (0, 0, 0) > isolation then 1 else 0) +
  (if cornerValue grid x y z (1, 0, 0) > isolation then 2 else 0) +
  (if cornerValue grid x y z (1, 1, 0) > isolation then 4 else 0) +
  (if cornerValue grid x y z (0, 1, 0) > isolation then 8 else 0) +
  (if cornerValue grid x y z (0, 0, 1) > isolation then 16 else 0) +
  (if cornerValue grid x y z (1, 0, 1) > isolation then 32 else 0) +
  (if cornerValue grid x y z (1, 1, 1) > isolation then 64 else 0) +
  (if cornerValue grid x y z (0, 1, 1) > isolation then 128 else 0)

/-- World position of a cube corner (the sample's world position). -/
def cornerWorldPos (grid : VoxelGrid) (x y z : ℕ) (o : ℕ × ℕ × ℕ) : QVec :=
  samplePos grid (cornerIndex grid.res x y z o)

/-- Linear interpolation of the `isolation` crossing along one cube edge. -/
def edgeLerp (isolation va vb : ℚ) (pa pb : QVec) : QVec :=
  qAdd pa (qSmul ((isolation - va) / (vb - va)) (qSub pb pa))

/-- The interpolated crossing points of the cube's edges: an edge crosses the
isosurface when exactly one of its endpoint values exceeds `isolation`. -/
def crossingPoints (grid : VoxelGrid) (isolation : ℚ) (x y z : ℕ) : List QVec :=
  cubeEdges.filterMap (fun e =>
    let oa := cornerOffsets.getD e.1 (0, 0, 0)
    let ob := cornerOffsets.getD e.2 (0, 0, 0)
    let va := cornerValue grid x y z oa
    let vb := cornerValue grid x y z ob
    if (va > isolation ∧ ¬vb > isolation) ∨ (¬va > isolation ∧ vb > isolation) then
      some (edgeLerp isolation va vb (cornerWorldPos grid x y z oa)
        (cornerWorldPos grid x y z ob))
    else none)

/-- Triangle fan over an ordered point list. -/
def fanFrom (p0 : QVec) : List QVec → List Triangle
  | a :: b :: rest => (p0, a, b) :: fanFrom p0 (b :: rest)
  | _ => []

def triangleFan : List QVec → List Triangle
  | p0 :: rest => fanFrom p0 rest
  | [] => []

/-- The triangles one cube emits: nothing for the two trivial configurations
(all corners below or all above `isolation`), otherwise the fan of its edge
crossings. -/
def trianglesForCube (grid : VoxelGrid) (isolation : ℚ) (x y z : ℕ) :
    List Triangle :=
  if cubeConfig grid isolation x y z = 0 ∨ cubeConfig grid isolation x y z = 255 then []
  else triangleFan (crossingPoints grid isolation x y z)

/-- Spec §4.4 `MarchingCubesMesher.extract(grid, isolation)`: emits the
triangles of every cube of 8 adjacent samples, in a fixed traversal order. -/
def extract (grid : VoxelGrid) (isolation : ℚ) : List Triangle :=
  ((List.range (grid.res - 1)).map (fun z =>
    ((List.range (grid.res - 1)).map (fun y =>
      ((List.range (grid.res - 1)).map (fun x =>
        trianglesForCube grid isolation x y z)).flatten)).flatten)).flatten

/-! ## Shared stage lemmas -/

theorem orbitStage_fst (pv : Vec3 × Vec3) : (orbitStage pv).1 = pv.1 := rfl

theorem stateStage_fst (inp : StepInput) (pv : Vec3 × Vec3) :
    (stateStage inp pv).1 = pv.1 := by
  cases h : inp.state <;> simp [stateStage, h]

theorem bounceStage_pos_le (inp : StepInput) (pv : Vec3 × Vec3) :
    Vec3.length (bounceStage inp pv).1 ≤ bounceRegion := by
  unfold bounceStage
  dsimp only
  split_ifs with h
  · dsimp only
    rw [Vec3.length_smul,
      abs_of_nonneg (by norm_num [bounceRegion] : (0 : ℝ) ≤ bounceRegion * 0.9)]
    have h1 := Vec3.length_normalize_le_one pv.1
    have h2 : bounceRegion * 0.9 * Vec3.length (Vec3.normalize pv.1) ≤ bounceRegion * 0.9 :=
      mul_le_of_le_one_right (by norm_num [bounceRegion]) h1
    have h3 : bounceRegion * 0.9 ≤ bounceRegion := by norm_num [bounceRegion]
    linarith
  · exact le_of_not_lt h

theorem stepMetaNode_pos_le (inp : StepInput) (pv : Vec3 × Vec3) :
    Vec3.length (stepMetaNode inp pv).1 ≤ bounceRegion := by
  unfold stepMetaNode
  rw [stateStage_fst, orbitStage_fst]
  exact bounceStage_pos_le _ _

/-! ## Claim C1 -/

/-- C1: after every `updateMetaNodes` iteration of every sequence of steps —
from an arbitrary pre-state, with arbitrary mood modulation, pointer input,
random draws and time — a non-core node's distance from the origin is at most
`bounceRegion * 1.1` (in fact at most `bounceRegion`): the integrated position
is either already inside the bounce sphere or re-projected to
`bounceRegion * 0.9`, and the subsequent orbital and state forces only touch
the velocity. Positions are (trivially, in this real-number embedding) finite. -/
theorem step_position_bounded (rest : List StepInput) (inp : StepInput)
    (pv : Vec3 × Vec3) :
    Vec3.length (foldSteps rest (stepMetaNode inp pv)).1 ≤ bounceRegion * 1.1 := by
  induction rest generalizing inp pv with
  | nil =>
    have h := stepMetaNode_pos_le inp pv
    have h2 : bounceRegion ≤ bounceRegion * 1.1 := by norm_num [bounceRegion]
    show Vec3.length (stepMetaNode inp pv).1 ≤ bounceRegion * 1.1
    linarith
  | cons j rest ih =>
    show Vec3.length (foldSteps rest (stepMetaNode j (stepMetaNode inp pv))).1 ≤
      bounceRegion * 1.1
    exact ih j (stepMetaNode inp pv)

/-! ## Claim C5 -/

/-- C5: whenever the integrated position's distance from the origin exceeds
`bounceRegion`, the reflection branch reflects the velocity about the outward
unit normal (`v - 2(v·n)n`), re-projects the position to `bounceRegion * 0.9`
along that normal (so the resulting distance is exactly `bounceRegion * 0.9`),
and scales the reflected velocity by `1.2 * modulation.turbulence`. -/
theorem bounce_reflection (inp : StepInput) (p v : Vec3)
    (h : Vec3.length p > bounceRegion) :
    bounceStage inp (p, v) =
      (Vec3.smul (bounceRegion * 0.9) (Vec3.normalize p),
       Vec3.smul (1.2 * inp.modulation.turbulence)
         (Vec3.sub v (Vec3.smul (2 * Vec3.dot v (Vec3.normalize p))
           (Vec3.normalize p)))) ∧
    Vec3.length (bounceStage inp (p, v)).1 = bounceRegion * 0.9 := by
  have heq : bounceStage inp (p, v) =
      (Vec3.smul (bounceRegion * 0.9) (Vec3.normalize p),
       Vec3.smul (1.2 * inp.modulation.turbulence)
         (Vec3.sub v (Vec3.smul (2 * Vec3.dot v (Vec3.normalize p))
           (Vec3.normalize p)))) := by
    unfold bounceStage
    dsimp only
    rw [if_pos h]
  refine ⟨heq, ?_⟩
  rw [heq]
  dsimp only
  have hne : Vec3.length p ≠ 0 := by
    have h0 : (0 : ℝ) < Vec3.length p := lt_trans (by norm_num [bounceRegion]) h
    exact ne_of_gt h0
  rw [Vec3.length_smul, Vec3.length_normalize_of_ne p hne, mul_one,
    abs_of_nonneg (by norm_num [bounceRegion] : (0 : ℝ) ≤ bounceRegion * 0.9)]

/-- Witness for C5: a node at `(0.5, 0, 0)` (outside the `0.38` sphere) with
velocity `(1, 0, 0)` in the idle state is re-projected to `(0.342, 0, 0)` with
velocity `(-0.096, 0, 0)` (reflected, then scaled by `1.2 * 0.08`). -/
theorem bounce_reflection_witness :
    Vec3.length ⟨0.5, 0, 0⟩ > bounceRegion ∧
    bounceStage ⟨AnimationState.idle, STATE_MODULATIONS AnimationState.idle, 0, (0, 0),
        ⟨0, 0, 0⟩, 1, 13⟩ (⟨0.5, 0, 0⟩, ⟨1, 0, 0⟩) =
      (⟨0.342, 0, 0⟩, ⟨-0.096, 0, 0⟩) := by
  have hlen : Vec3.length ⟨0.5, 0, 0⟩ = 0.5 := by
    show Real.sqrt ((0.5 : ℝ) ^ 2 + 0 ^ 2 + 0 ^ 2) = 0.5
    rw [show ((0.5 : ℝ) ^ 2 + 0 ^ 2 + 0 ^ 2) = 0.5 ^ 2 by norm_num,
      Real.sqrt_sq (by norm_num : (0 : ℝ) ≤ 0.5)]
  have hgt : Vec3.length ⟨0.5, 0, 0⟩ > bounceRegion := by
    rw [hlen]; norm_num [bounceRegion]
  have hnorm : Vec3.normalize ⟨0.5, 0, 0⟩ = ⟨1, 0, 0⟩ := by
    unfold Vec3.normalize
    rw [hlen]
    unfold Vec3.smul
    norm_num
  refine ⟨hgt, ?_⟩
  have h := (bounce_reflection
    ⟨AnimationState.idle, STATE_MODULATIONS AnimationState.idle, 0, (0, 0),
      ⟨0, 0, 0⟩, 1, 13⟩ ⟨0.5, 0, 0⟩ ⟨1, 0, 0⟩ hgt).1
  rw [h, hnorm]
  unfold Vec3.smul Vec3.sub Vec3.dot
  norm_num [bounceRegion, STATE_MODULATIONS, Prod.ext_iff]

/-! ## Claim C6 -/

theorem accumFieldFrom_nil (grid : VoxelGrid) (fieldStrength k : ℚ) (i : ℕ)
    (l : List ℚ) : accumFieldFrom grid [] fieldStrength k i l = l := by
  induction l generalizing i with
  | nil => rfl
  | cons v rest ih =>
    unfold accumFieldFrom
    rw [ih]
    simp [cellDeposit]

theorem accumColorFrom_nil (grid : VoxelGrid) (fieldStrength k : ℚ) (i : ℕ)
    (l : List QVec) : accumColorFrom grid [] fieldStrength k i l = l := by
  induction l generalizing i with
  | nil => rfl
  | cons v rest ih =>
    unfold accumColorFrom
    rw [ih]
    simp [cellColorDeposit, qAdd]

theorem getD_zero_of_all_zero (l : List ℚ) (hz : ∀ v ∈ l, v = 0) (i : ℕ) :
    l.getD i 0 = 0 := by
  induction l generalizing i with
  | nil => simp
  | cons a rest ih =>
    match i with
    | 0 => simpa using hz a (List.mem_cons_self a rest)
    | n + 1 =>
      show rest.getD n 0 = 0
      exact ih (fun v hv => hz v (List.mem_cons_of_mem a hv)) n

/-- C6: `FieldAccumulator.accumulate` on an empty node list leaves the grid
unchanged — in particular an all-zero field stays at zero — and
`MarchingCubesMesher.extract` on an all-zero grid with any positive isolation
yields zero triangles rather than an error. (Modelled from the spec:
`utils/MarchingCubes.ts` is absent from the source tree.) -/
theorem empty_accumulate_extract (grid : VoxelGrid) (fieldStrength k isolation : ℚ)
    (hiso : 0 < isolation) (hzero : ∀ v ∈ grid.field, v = 0) :
    accumulate grid [] fieldStrength k = grid ∧ extract grid isolation = [] := by
  constructor
  · unfold accumulate
    rw [accumFieldFrom_nil, accumColorFrom_nil]
  · have hcv : ∀ x y z o, cornerValue grid x y z o = 0 := fun x y z o =>
      getD_zero_of_all_zero grid.field hzero _
    have hiso2 : ¬(0 : ℚ) > isolation := lt_asymm hiso
    have hcfg : ∀ x y z, cubeConfig grid isolation x y z = 0 := by
      intro x y z
      unfold cubeConfig
      rw [hcv, hcv, hcv, hcv, hcv, hcv, hcv, hcv]
      simp [hiso2]
    have htri : ∀ x y z, trianglesForCube grid isolation x y z = [] := by
      intro x y z
      unfold trianglesForCube
      rw [hcfg]
      simp
    unfold extract
    simp [htri]

/-- Witness for C6 on a concrete `2 ^ 3` all-zero grid with isolation `1`. -/
theorem empty_accumulate_extract_witness :
    accumulate ⟨2, 1, (0, 0, 0), List.replicate 8 0, List.replicate 8 (0, 0, 0)⟩ [] 1 1 =
      ⟨2, 1, (0, 0, 0), List.replicate 8 0, List.replicate 8 (0, 0, 0)⟩ ∧
    extract ⟨2, 1, (0, 0, 0), List.replicate 8 0, List.replicate 8 (0, 0, 0)⟩ 1 = [] :=
  empty_accumulate_extract _ 1 1 1 (by norm_num)
    (fun v hv => List.eq_of_mem_replicate hv)

/-! ## Claim C10 -/

theorem sin_cos_sin_bound (a b c k : ℝ) (hk : 0 ≤ k) :
    |Real.sin a * Real.cos b * Real.sin c * k| ≤ k := by
  rw [abs_mul, abs_mul, abs_mul, abs_of_nonneg hk]
  have ha := Real.abs_sin_le_one a
  have hb := Real.abs_cos_le_one b
  have hc := Real.abs_sin_le_one c
  have h1 : |Real.sin a| * |Real.cos b| ≤ 1 :=
    mul_le_one₀ ha (abs_nonneg _) hb
  have h2 : |Real.sin a| * |Real.cos b| * |Real.sin c| ≤ 1 :=
    mul_le_one₀ h1 (abs_nonneg _) hc
  exact mul_le_of_le_one_left hk h2

/-- The `simplex3D` noise is bounded by the sum `0.5 + 0.3 + 0.2 + 0.1 = 1.1`
of its layer coefficients. -/
theorem abs_simplex3D_le (x y z : ℝ) : |simplex3D x y z| ≤ 1.1 := by
  unfold simplex3D
  set t1 := Real.sin x * Real.cos y * Real.sin z * 0.5 with ht1
  set t2 := Real.sin (x * 2.1 + 0.3) * Real.cos (y * 1.7 + 0.2) *
    Real.sin (z * 2.3 + 0.1) * 0.3 with ht2
  set t3 := Real.sin (x * 3.7 + 0.7) * Real.cos (y * 4.3 + 0.4) *
    Real.sin (z * 2.9 + 0.5) * 0.2 with ht3
  set t4 := Real.sin (x * 5.1 - 0.4) * Real.cos (y * 4.8 + 0.3) *
    Real.sin (z * 5.2 - 0.2) * 0.1 with ht4
  have b1 : |t1| ≤ 0.5 := sin_cos_sin_bound _ _ _ _ (by norm_num)
  have b2 : |t2| ≤ 0.3 := sin_cos_sin_bound _ _ _ _ (by norm_num)
  have b3 : |t3| ≤ 0.2 := sin_cos_sin_bound _ _ _ _ (by norm_num)
  have b4 : |t4| ≤ 0.1 := sin_cos_sin_bound _ _ _ _ (by norm_num)
  have h1 := abs_add (t1 + t2 + t3) t4
  have h2 := abs_add (t1 + t2) t3
  have h3 := abs_add t1 t2
  linarith

theorem turbulence_bounds (state : AnimationState) :
    0 ≤ (STATE_MODULATIONS state).turbulence ∧
      (STATE_MODULATIONS state).turbulence ≤ 0.2 := by
  cases state <;> constructor <;> norm_num [STATE_MODULATIONS]

theorem baseStrength_ge (state : AnimationState) (t : ℝ) :
    1.71 ≤ baseStrength state t := by
  cases state
  · simp only [baseStrength]
    norm_num
  · have hs := Real.neg_one_le_sin (t * 1.5)
    simp only [baseStrength]
    nlinarith
  · have hs := Real.neg_one_le_sin (t * 0.8)
    simp only [baseStrength]
    nlinarith
  · have hs := Real.neg_one_le_sin (t * 3)
    simp only [baseStrength]
    nlinarith

theorem nodeBallStrength_pos (state : AnimationState) (t : ℝ) (index : ℕ)
    (node : Vec3) : 0 < nodeBallStrength state t index node := by
  unfold nodeBallStrength
  dsimp only
  have hb := baseStrength_ge state t
  have hT := turbulence_bounds state
  have hS := abs_simplex3D_le (node.x + t * 0.2) (node.y + t * 0.3) (node.z + t * 0.1)
  have hSn := abs_nonneg (simplex3D (node.x + t * 0.2) (node.y + t * 0.3) (node.z + t * 0.1))
  have habs : |simplex3D (node.x + t * 0.2) (node.y + t * 0.3) (node.z + t * 0.1) * 0.15 *
      (STATE_MODULATIONS state).turbulence| ≤ 0.033 := by
    rw [abs_mul, abs_mul, abs_of_nonneg hT.1,
      show |(0.15 : ℝ)| = 0.15 from by norm_num]
    nlinarith
  have hfac : (0 : ℝ) < 1 + simplex3D (node.x + t * 0.2) (node.y + t * 0.3)
      (node.z + t * 0.1) * 0.15 * (STATE_MODULATIONS state).turbulence := by
    have := (abs_le.mp habs).1
    linarith
  split_ifs with h
  · exact mul_pos (by linarith) hfac
  · exact mul_pos (by linarith) hfac

/-- C10: every strength value that `updateMetaballs` passes to
`MarchingCubes.addBall` is strictly positive: `|simplex3D| ≤ 1.1`, so the
fluctuation factor `1 + simplex3D * 0.15 * turbulence` is at least `0.967`
for every mood's turbulence (all at most `0.2`), and every `ballStrength`
(core doubled or not) and the optional mouse ball strength are positive. -/
theorem addBall_strength_positive (state : AnimationState) (t : ℝ)
    (nodes : List Vec3) (mouse : ℝ × ℝ) :
    ∀ s ∈ updateMetaballsStrengths state t nodes mouse, 0 < s := by
  intro s hs
  unfold updateMetaballsStrengths at hs
  dsimp only at hs
  have hnode : ∀ (i : ℕ) (l : List Vec3), s ∈ nodeStrengthsFrom state t i l → 0 < s := by
    intro i l
    induction l generalizing i with
    | nil =>
      intro h
      simp [nodeStrengthsFrom] at h
    | cons n rest ih =>
      intro h
      unfold nodeStrengthsFrom at h
      rcases List.mem_cons.mp h with h | h
      · rw [h]
        exact nodeBallStrength_pos state t i n
      · exact ih _ h
  split_ifs at hs with hm
  · rcases List.mem_append.mp hs with h | h
    · exact hnode 0 nodes h
    · rw [List.mem_singleton.mp h]
      have hb := baseStrength_ge state t
      nlinarith
  · exact hnode 0 nodes hs

/-- Witness for C10: with no nodes and the pointer at the center, the one
strength passed to `addBall` is the mouse ball's, and it is positive. -/
theorem addBall_strength_positive_witness :
    0 < baseStrength AnimationState.idle 0 * 0.5 * 0.02 := by
  apply addBall_strength_positive AnimationState.idle 0 [] (0, 0)
  have hm : Real.sqrt (((0 : ℝ), (0 : ℝ)).1 ^ 2 + ((0 : ℝ), (0 : ℝ)).2 ^ 2) < 0.8 := by
    rw [show (((0 : ℝ), (0 : ℝ)).1 ^ 2 + ((0 : ℝ), (0 : ℝ)).2 ^ 2) = 0 from by norm_num,
      Real.sqrt_zero]
    norm_num
  unfold updateMetaballsStrengths
  rw [if_pos hm]
  simp [nodeStrengthsFrom]

/-! ## Claim C4 -/

theorem length_axis_x (a : ℝ) : Vec3.length ⟨a, 0, 0⟩ = |a| := by
  unfold Vec3.length
  norm_num [Real.sqrt_sq_eq_abs]

theorem length_axis_z (a : ℝ) : Vec3.length ⟨0, 0, a⟩ = |a| := by
  unfold Vec3.length
  norm_num [Real.sqrt_sq_eq_abs]

/-- C4 counterexample: at the concrete pre-state `pos = (0.1, 0, 0)`,
`vel = 0`, idle mood, `t = 0`, centered pointer and neutral random draws, the
code's step (orbital and state forces after integration) and the spec's claimed
order (orbital and state forces before integration) produce different
positions: the code leaves `z = 0` while the spec order yields `z = 0.00205`. -/
theorem force_order_counterexample :
    (stepMetaNode ⟨AnimationState.idle, STATE_MODULATIONS AnimationState.idle, 0, (0, 0),
        ⟨0.5, 0.5, 0.5⟩, 1, 13⟩ (⟨0.1, 0, 0⟩, ⟨0, 0, 0⟩)).1 ≠
      (stepSpecOrder ⟨AnimationState.idle, STATE_MODULATIONS AnimationState.idle, 0, (0, 0),
        ⟨0.5, 0.5, 0.5⟩, 1, 13⟩ (⟨0.1, 0, 0⟩, ⟨0, 0, 0⟩)).1 := by
  have hnorm1 : Vec3.normalize ⟨-0.1, 0, 0⟩ = ⟨-1, 0, 0⟩ := by
    unfold Vec3.normalize
    rw [length_axis_x]
    unfold Vec3.smul
    norm_num [abs_of_nonneg]
  have hnormz : Vec3.normalize ⟨0, 0, 0.1⟩ = ⟨0, 0, 1⟩ := by
    unfold Vec3.normalize
    rw [length_axis_z]
    unfold Vec3.smul
    norm_num [abs_of_nonneg]
  have e1 : turbStage ⟨AnimationState.idle, STATE_MODULATIONS AnimationState.idle, 0, (0, 0),
      ⟨0.5, 0.5, 0.5⟩, 1, 13⟩ (⟨0.1, 0, 0⟩, ⟨0, 0, 0⟩) = (⟨0.1, 0, 0⟩, ⟨0, 0, 0⟩) := by
    unfold turbStage Vec3.add
    dsimp only [STATE_MODULATIONS]
    norm_num
  have e2 : centerStage (⟨0.1, 0, 0⟩, ⟨0, 0, 0⟩) = (⟨0.1, 0, 0⟩, ⟨-0.0008, 0, 0⟩) := by
    unfold centerStage
    rw [show Vec3.neg ⟨0.1, 0, 0⟩ = ⟨-0.1, 0, 0⟩ from by unfold Vec3.neg; norm_num,
      hnorm1, length_axis_x]
    unfold Vec3.add Vec3.smul
    norm_num [centerAttraction, abs_of_nonneg]
  have e3 : mouseStage ⟨AnimationState.idle, STATE_MODULATIONS AnimationState.idle, 0, (0, 0),
      ⟨0.5, 0.5, 0.5⟩, 1, 13⟩ (⟨0.1, 0, 0⟩, ⟨-0.0008, 0, 0⟩) =
      (⟨0.1, 0, 0⟩, ⟨-0.0058, 0, 0⟩) := by
    unfold mouseStage
    dsimp only
    rw [show Vec3.sub ⟨0 * 0.5, 0 * 0.5, 0⟩ ⟨0.1, 0, 0⟩ = ⟨-0.1, 0, 0⟩ from by
        unfold Vec3.sub; norm_num,
      length_axis_x, hnorm1, if_pos (show |(-0.1 : ℝ)| < 0.5 by rw [abs_lt]; norm_num)]
    unfold Vec3.add Vec3.smul
    norm_num [mouseInfluence, abs_of_nonneg]
  have e4 : integrateDampStage (⟨0.1, 0, 0⟩, ⟨-0.0058, 0, 0⟩) =
      (⟨0.0942, 0, 0⟩, ⟨-0.005568, 0, 0⟩) := by
    unfold integrateDampStage Vec3.add Vec3.smul
    norm_num
  have e5 : bounceStage ⟨AnimationState.idle, STATE_MODULATIONS AnimationState.idle, 0, (0, 0),
      ⟨0.5, 0.5, 0.5⟩, 1, 13⟩ (⟨0.0942, 0, 0⟩, ⟨-0.005568, 0, 0⟩) =
      (⟨0.0942, 0, 0⟩, ⟨-0.005568, 0, 0⟩) := by
    unfold bounceStage
    dsimp only
    rw [if_neg (by rw [length_axis_x]; norm_num [bounceRegion, abs_of_nonneg])]
  have hcode : (stepMetaNode ⟨AnimationState.idle, STATE_MODULATIONS AnimationState.idle, 0,
      (0, 0), ⟨0.5, 0.5, 0.5⟩, 1, 13⟩ (⟨0.1, 0, 0⟩, ⟨0, 0, 0⟩)).1 = ⟨0.0942, 0, 0⟩ := by
    unfold stepMetaNode
    rw [stateStage_fst, orbitStage_fst, e1, e2, e3, e4, e5]
  have e6 : orbitStage (⟨0.1, 0, 0⟩, ⟨-0.0058, 0, 0⟩) =
      (⟨0.1, 0, 0⟩, ⟨-0.0058, 0, 0.002⟩) := by
    unfold orbitStage
    rw [show Vec3.cross ⟨0.1, 0, 0⟩ ⟨0, 1, 0⟩ = ⟨0, 0, 0.1⟩ from by
        unfold Vec3.cross; norm_num,
      hnormz]
    unfold Vec3.add Vec3.smul
    norm_num [orbitStrength]
  have e7 : stateStage ⟨AnimationState.idle, STATE_MODULATIONS AnimationState.idle, 0, (0, 0),
      ⟨0.5, 0.5, 0.5⟩, 1, 13⟩ (⟨0.1, 0, 0⟩, ⟨-0.0058, 0, 0.002⟩) =
      (⟨0.1, 0, 0⟩, ⟨-0.0058, 0, 0.00205⟩) := by
    show ((⟨0.1, 0, 0⟩ : Vec3), Vec3.add ⟨-0.0058, 0, 0.002⟩
      ⟨-(0 : ℝ) * 0.0005, 0, (0.1 : ℝ) * 0.0005⟩) =
      ((⟨0.1, 0, 0⟩ : Vec3), (⟨-0.0058, 0, 0.00205⟩ : Vec3))
    unfold Vec3.add
    norm_num
  have e8 : integrateDampStage (⟨0.1, 0, 0⟩, ⟨-0.0058, 0, 0.00205⟩) =
      (⟨0.0942, 0, 0.00205⟩, ⟨-0.005568, 0, 0.001968⟩) := by
    unfold integrateDampStage Vec3.add Vec3.smul
    norm_num
  have hlen9 : Vec3.length ⟨0.0942, 0, 0.00205⟩ ≤ 0.38 := by
    unfold Vec3.length
    have h1 : ((0.0942 : ℝ) ^ 2 + 0 ^ 2 + 0.00205 ^ 2) ≤ 0.38 ^ 2 := by norm_num
    calc Real.sqrt ((0.0942 : ℝ) ^ 2 + 0 ^ 2 + 0.00205 ^ 2)
        ≤ Real.sqrt (0.38 ^ 2) := Real.sqrt_le_sqrt h1
      _ = 0.38 := Real.sqrt_sq (by norm_num)
  have e9 : bounceStage ⟨AnimationState.idle, STATE_MODULATIONS AnimationState.idle, 0, (0, 0),
      ⟨0.5, 0.5, 0.5⟩, 1, 13⟩ (⟨0.0942, 0, 0.00205⟩, ⟨-0.005568, 0, 0.001968⟩) =
      (⟨0.0942, 0, 0.00205⟩, ⟨-0.005568, 0, 0.001968⟩) := by
    unfold bounceStage
    dsimp only
    rw [if_neg (not_lt.mpr (by rw [show bounceRegion = (0.38 : ℝ) from rfl]; exact hlen9))]
  have hspec : (stepSpecOrder ⟨AnimationState.idle, STATE_MODULATIONS AnimationState.idle, 0,
      (0, 0), ⟨0.5, 0.5, 0.5⟩, 1, 13⟩ (⟨0.1, 0, 0⟩, ⟨0, 0, 0⟩)).1 =
      ⟨0.0942, 0, 0.00205⟩ := by
    unfold stepSpecOrder
    rw [e1, e2, e3, e6, e7, e8, e9]
  rw [hcode, hspec]
  simp only [ne_eq, Vec3.mk.injEq, not_and]
  intro _ _
  norm_num

/-- C4 amended: within one integration step the forces are applied as
(1) turbulence, (2) center attraction, (3) pointer attraction; then the
position is integrated (`position += velocity`), the velocity damped by `0.96`
and the boundary reflection applied; only after all of that are (4) the orbital
force and (5) the state-specific force added, so they modify only the velocity
and first influence the position at the next step's integration. -/
theorem force_order_amended (inp : StepInput) (pv : Vec3 × Vec3) :
    stepMetaNode inp pv =
      stateStage inp (orbitStage (bounceStage inp
        (integrateDampStage (mouseStage inp (centerStage (turbStage inp pv)))))) ∧
    (stepMetaNode inp pv).1 =
      (bounceStage inp (integrateDampStage
        (mouseStage inp (centerStage (turbStage inp pv))))).1 := by
  refine ⟨rfl, ?_⟩
  unfold stepMetaNode
  rw [stateStage_fst, orbitStage_fst]

/-! ## Claim C2 -/

/-- C2 counterexample: `initializeMetaNodes(12)` creates `13` nodes (one
central node plus `count` satellites), not `12`, and the `t = 0` wobble of the
central node evaluates to `(0, 0.02, 0)`, not the origin. -/
theorem reset_count_counterexample :
    (initializeMetaNodes 12).length = 13 ∧ coreWobble 0 ≠ Vec3.zero := by
  constructor
  · simp [initializeMetaNodes]
  · have h : coreWobble 0 = ⟨0, 0.02, 0⟩ := by
      unfold coreWobble
      norm_num
    rw [h]
    simp only [Vec3.zero, ne_eq, Vec3.mk.injEq]
    norm_num

/-- C2 amended: after `initializeMetaNodes(count)` exactly `count + 1` nodes
exist, exactly one of them is the core node, that core node is the list head
and its initial position is the origin; the core wobble at `t = 0` evaluates to
`(0, 0.02, 0)`, a `0.02` offset from the origin rather than the origin itself. -/
theorem reset_amended (count : ℕ) :
    (initializeMetaNodes count).length = count + 1 ∧
    (initializeMetaNodes count).countP (fun n => n.isCore) = 1 ∧
    (initializeMetaNodes count).head? =
      some { pos := Vec3.zero, vel := Vec3.zero, isCore := true } ∧
    coreWobble 0 = ⟨0, 0.02, 0⟩ := by
  refine ⟨by simp [initializeMetaNodes], ?_, rfl, by unfold coreWobble; norm_num⟩
  unfold initializeMetaNodes
  rw [List.countP_cons]
  have hz : List.countP (fun n => n.isCore) ((List.range count).map (satelliteNode count)) = 0 := by
    rw [List.countP_eq_zero]
    intro n hn
    rw [List.mem_map] at hn
    obtain ⟨i, _, rfl⟩ := hn
    simp [satelliteNode]
  rw [hz]
  simp

/-! ## Claim C3 -/

/-- C3 counterexample: in `OrbeElement.tsx` the `[currentState]` effect does
not rebuild the node list, so after `setState('talking')` the node count is
still the `13` produced by `initializeMetaNodes(12)` and differs from
`STATE_MODULATIONS.talking.bodyCount = 22`. -/
theorem state_transition_counterexample :
    ((orbeStateChange ((initializeMetaNodes 12).map MetaNode.pos)
        ((initializeMetaNodes 12).map MetaNode.vel) (fun _ => Vec3.zero)).1).length = 13 ∧
    (STATE_MODULATIONS AnimationState.talking).bodyCount = 22 ∧
    ((orbeStateChange ((initializeMetaNodes 12).map MetaNode.pos)
        ((initializeMetaNodes 12).map MetaNode.vel) (fun _ => Vec3.zero)).1).length ≠
      (STATE_MODULATIONS AnimationState.talking).bodyCount := by
  refine ⟨?_, rfl, ?_⟩ <;>
    simp [orbeStateChange, initializeMetaNodes, STATE_MODULATIONS]

/-- C3 amended: a mood-state change in `OrbeElement.tsx` leaves the node list
itself unchanged (the effect only adds random velocity impulses), so the core
node remains present and the count never becomes the state's `bodyCount`; only
the `OrbeElementPhysics.tsx` variant rebuilds the body list wholesale, to
exactly `STATE_MODULATIONS[state].bodyCount` fresh bodies. -/
theorem state_transition_amended :
    (∀ (nodes velocities : List Vec3) (impulse : ℕ → Vec3),
      (orbeStateChange nodes velocities impulse).1 = nodes) ∧
    (∀ (state : AnimationState) (randDraws : ℕ → Vec3) (randHue : ℕ → ℝ),
      (initializeMetaBodies state randDraws randHue).length =
        (STATE_MODULATIONS state).bodyCount) := by
  refine ⟨fun _ _ _ => rfl, fun state rd rh => ?_⟩
  simp [initializeMetaBodies, createMetaBodies]

/-! ## Claim C7 -/

/-- C7: `noise2D` and `noise3D` are pure functions of their input tuple —
equal inputs give equal outputs — and every value lies in `[0, 1)` (in
particular it is a well-defined real, never `NaN`). -/
theorem noise_range_and_pure (x y z seed x2 y2 z2 seed2 : ℝ) :
    (0 ≤ noise2D x y seed ∧ noise2D x y seed < 1) ∧
    (0 ≤ noise3D x y z seed ∧ noise3D x y z seed < 1) ∧
    (x = x2 → y = y2 → seed = seed2 → noise2D x y seed = noise2D x2 y2 seed2) ∧
    (x = x2 → y = y2 → z = z2 → seed = seed2 →
      noise3D x y z seed = noise3D x2 y2 z2 seed2) := by
  refine ⟨⟨?_, ?_⟩, ⟨?_, ?_⟩, ?_, ?_⟩
  · have h := Int.floor_le (Real.sin (x * 12.9898 + y * 78.233 + seed) * 43758.5453123)
    unfold noise2D
    linarith
  · have h := Int.lt_floor_add_one (Real.sin (x * 12.9898 + y * 78.233 + seed) * 43758.5453123)
    unfold noise2D
    linarith
  · have h := Int.floor_le
      (Real.sin (x * 12.9898 + y * 78.233 + z * 37.719 + seed) * 43758.5453123)
    unfold noise3D
    linarith
  · have h := Int.lt_floor_add_one
      (Real.sin (x * 12.9898 + y * 78.233 + z * 37.719 + seed) * 43758.5453123)
    unfold noise3D
    linarith
  · rintro rfl rfl rfl
    rfl
  · rintro rfl rfl rfl rfl
    rfl

/-- Witness for C7 at the concrete inputs `(1, 2, 42)` and `(1, 2, 3, 42)`. -/
theorem noise_range_and_pure_witness :
    (0 ≤ noise2D 1 2 42 ∧ noise2D 1 2 42 < 1) ∧
    (0 ≤ noise3D 1 2 3 42 ∧ noise3D 1 2 3 42 < 1) ∧
    noise2D 1 2 42 = noise2D 1 2 42 ∧ noise3D 1 2 3 42 = noise3D 1 2 3 42 := by
  obtain ⟨h2, h3, hp2, hp3⟩ := noise_range_and_pure 1 2 3 42 1 2 3 42
  exact ⟨h2, h3, hp2 rfl rfl rfl, hp3 rfl rfl rfl rfl⟩

/-! ## Claim C8 -/

/-- C8 counterexample: `10000 ms` and `20000 ms` both exceed `1/15 s`
(`1000/15 ms`), yet `animateFn`'s time increments for them differ — were
`deltaTime` clamped to `1/15 s` before use, both would advance time equally. -/
theorem dt_clamp_counterexample :
    (1000 / 15 : ℝ) < 10000 ∧ (1000 / 15 : ℝ) < 20000 ∧
    timeIncrement 10000 ≠ timeIncrement 20000 := by
  unfold timeIncrement
  norm_num

/-- C8 amended: the elapsed frame time is not clamped before use:
`OrbeHDRIFixed.tsx` scales its per-frame time increment linearly with the
measured `deltaTime`, exceeding any fixed bound for large enough stalls, while
`OrbeElement.tsx` ignores wall-clock time entirely and always advances its
clock by the constant `0.01`. -/
theorem dt_clamp_amended :
    (∀ M : ℝ, ∃ deltaTime : ℝ, timeIncrement deltaTime > M) ∧
    (∀ t : ℝ, animateAdvance t = t + 0.01) := by
  refine ⟨fun M => ⟨(M + 1) * 1667, ?_⟩, fun t => rfl⟩
  unfold timeIncrement
  have h : ((M + 1) * 1667 / 16.67) * 0.01 = M + 1 := by
    norm_num
    ring
  rw [h]
  linarith

/-! ## Claim C9 -/

/-- C9: `validateMousePosition` leaves in-range pointer coordinates unchanged,
clamps every accepted pointer into `[-1, 1] × [-1, 1]` instead of rejecting it,
and discards a pointer with a `NaN` coordinate (returns `none`, treated as no
pointer) rather than propagating it. -/
theorem pointer_validation (x y : ℝ) (mp : Option (JSNum × JSNum)) (p : ℝ × ℝ)
    (hx1 : -1 ≤ x) (hx2 : x ≤ 1) (hy1 : -1 ≤ y) (hy2 : y ≤ 1)
    (hp : validateMousePosition mp = some p) :
    validateMousePosition (some (some x, some y)) = some (x, y) ∧
    (-1 ≤ p.1 ∧ p.1 ≤ 1 ∧ -1 ≤ p.2 ∧ p.2 ≤ 1) ∧
    (∀ my : JSNum, validateMousePosition (some (none, my)) = none) ∧
    (∀ mx : JSNum, validateMousePosition (some (mx, none)) = none) := by
  refine ⟨?_, ?_, ?_, ?_⟩
  · show some (max (-1) (min 1 x), max (-1) (min 1 y)) = some (x, y)
    rw [min_eq_right hx2, max_eq_right hx1, min_eq_right hy2, max_eq_right hy1]
  · match mp with
    | none => simp [validateMousePosition] at hp
    | some (none, my) => simp [validateMousePosition] at hp
    | some (some a, none) => simp [validateMousePosition] at hp
    | some (some a, some b) =>
      unfold validateMousePosition at hp
      rw [Option.some_inj] at hp
      subst hp
      refine ⟨le_max_left _ _, ?_, le_max_left _ _, ?_⟩
      · exact max_le (by norm_num) (min_le_left _ _)
      · exact max_le (by norm_num) (min_le_left _ _)
  · intro my
    match my with
    | none => rfl
    | some b => rfl
  · intro mx
    match mx with
    | none => rfl
    | some a => rfl

/-- Witness for C9: in-range pointer `(0.5, -0.5)` passes through unchanged,
the out-of-range pointer `(2, 0)` is clamped to `(1, 0)` which lies in the
box, and pointers with a `NaN` coordinate are dropped. -/
theorem pointer_validation_witness :
    validateMousePosition (some (some 0.5, some (-0.5))) = some (0.5, -0.5) ∧
    (-1 ≤ (1 : ℝ) ∧ (1 : ℝ) ≤ 1 ∧ -1 ≤ (0 : ℝ) ∧ (0 : ℝ) ≤ 1) ∧
    validateMousePosition (some (none, some 0)) = none ∧
    validateMousePosition (some (some 0, none)) = none := by
  have h := pointer_validation 0.5 (-0.5) (some (some 2, some 0)) (1, 0)
    (by norm_num) (by norm_num) (by norm_num) (by norm_num)
    (by unfold validateMousePosition; norm_num)
  exact ⟨h.1, h.2.1, h.2.2.1 (some 0), h.2.2.2 (some 0)⟩

end Orbe
